import Mathlib

/-!
Verification of the signal-generation / execution-simulation engine
(repository `utr1`): a shallow embedding in Lean 4 of

  * `src/execution-simulator/main.py` — `ExecutionSimulator.simulate_fill`,
    `ExecutionSimulator.handle_signal`, the reset endpoints;
  * `src/strategy-engine/strategies/{buy_and_hold,ma_crossover,rsi_strategy,
    strategy_registry}.py` — the strategy variants and the registry's
    lookup/create contract.

Prices are embedded as rationals (`ℚ`), share counts as integers (`ℤ`).
Python's `round(x, 2)` is embedded as rounding to a multiple of 1/100 with
ties to even (`round2`); every concrete input used below is far from a tie,
so the embedding agrees with the source there.

The file `strategies/base_strategy.py` is imported by every strategy but is
not part of the source tree; the operations the strategies call on it
(`update_history`, `get_sma`, `get_ema`, `get_rsi`, `create_signal`) are
modelled from the spec, as marked on each definition.
-/

namespace Utr1

/-! ## Rounding: Python `round(x, 2)` on exact values -/

/-- Round a rational to the nearest integer, ties to even
(the behaviour of Python's `round` on exact values). -/
def roundHalfEven (q : ℚ) : ℤ :=
  let f : ℤ := ⌊q⌋
  let r : ℚ := q - f
  if r < 1/2 then f
  else if 1/2 < r then f + 1
  else if 2 ∣ f then f else f + 1

/-- Python `round(x, 2)`: round to a multiple of 1/100, ties to even. -/
def round2 (q : ℚ) : ℚ := (roundHalfEven (100 * q) : ℚ) / 100

/-! ## Execution simulator: data model

From `src/execution-simulator/main.py`.  A signal message as consumed by
`handle_signal` / `simulate_fill`: optional fields mirror `signal.get(key, default)`
reads in the source (`action` uses `""` for an absent/null value, which is
falsy in Python exactly like a missing key). -/

structure SigMsg where
  strategy_id : Option String
  symbol : String := "SPY"
  action : String
  quantity : Option ℤ
  price : Option ℚ
  timestamp : Option String
  deriving Repr, DecidableEq

/-- Latest market data kept by `handle_market_data` for a symbol. -/
structure MarketData where
  close : ℚ
  high : ℚ
  low : ℚ
  deriving Repr, DecidableEq

/-- A fill object as built in `simulate_fill` (lines 231–246). -/
structure Fill where
  fill_id : String
  strategy_id : Option String
  backtestId : Option String
  action : String
  symbol : String
  quantity : ℤ
  price : ℚ
  base_price : ℚ
  timestamp : String
  commission : ℚ
  slippage_amount : ℚ
  slippage_pct : ℚ
  fill_mode : String
  position_after : ℤ
  deriving Repr, DecidableEq

/-- A rejection notice as built in `handle_signal` (lines 156–163);
the constant `"type": "rejection"` tag is omitted. -/
structure Rejection where
  strategy_id : String
  backtestId : String
  reason : String
  original_signal : SigMsg
  timestamp : String
  deriving Repr, DecidableEq

/-- Per-strategy session state (`self.sessions[strategy_id]`, lines 111–116).
Positions are a total map with default 0, mirroring
`session["positions"].get(symbol, 0)`. -/
structure Session where
  positions : String → ℤ
  total_buys : ℕ
  total_sells : ℕ
  fills : List Fill

/-- The empty session created on first signal for an unseen strategy_id. -/
def Session.init : Session :=
  { positions := fun _ => 0, total_buys := 0, total_sells := 0, fills := [] }

/-- Simulator configuration (`self.config`, lines 35–39). -/
structure SimConfig where
  slippage : ℚ
  commission : ℚ
  fill_mode : String

/-- The default configuration of `ExecutionSimulator.__init__`. -/
def SimConfig.default : SimConfig :=
  { slippage := 1/100, commission := 1, fill_mode := "realistic" }

/-- Simulator state: sessions are a total map with `Session.init` as the
value for strategy ids not yet seen (the lazy creation in `handle_signal`
lines 109–116 makes the first write observe exactly this value). -/
structure SimState where
  sessions : String → Session
  fill_count : ℕ
  current_prices : String → Option MarketData
  config : SimConfig

/-- Initial simulator state. -/
def SimState.init : SimState :=
  { sessions := fun _ => Session.init
    fill_count := 0
    current_prices := fun _ => none
    config := SimConfig.default }

/-! ## `simulate_fill` (lines 178–255) -/

/-- `quantity = signal.get("quantity", 100)` (line 183). -/
def SigMsg.qty (sig : SigMsg) : ℤ := sig.quantity.getD 100

/-- The clamped quantity after the SELL validation (lines 193–195). -/
def clampedQty (sig : SigMsg) (current_position : ℤ) : ℤ :=
  if sig.action = "SELL" ∧ sig.qty > current_position then current_position
  else sig.qty

/-- The base price used for the fill (lines 197–206): the signal's own
price (default 450.0), overridden by the latest market data for the
symbol when present — BUY takes the high, SELL the low. -/
def basePriceOf (st : SimState) (sig : SigMsg) : ℚ :=
  let fromSignal := sig.price.getD 450
  match st.current_prices sig.symbol with
  | none => fromSignal
  | some md => if sig.action = "BUY" then md.high else md.low

/-- `slippage_amount = base_price * (slippage_pct / 100)` (lines 213/216). -/
def slippageAmtOf (st : SimState) (sig : SigMsg) : ℚ :=
  basePriceOf st sig * (st.config.slippage / 100)

/-- The unrounded fill price (lines 212–217): base plus slippage for a BUY,
base minus slippage otherwise. -/
def fillPriceOf (st : SimState) (sig : SigMsg) : ℚ :=
  if sig.action = "BUY" then basePriceOf st sig + slippageAmtOf st sig
  else basePriceOf st sig - slippageAmtOf st sig

/-- `fill_id` string: `f"fill_{self.fill_count}"` (line 232). -/
def mkFillId (n : ℕ) : String := "fill_" ++ toString n

/-- One `simulate_fill` call (lines 178–255) against the session of
`sig.strategy_id` (defaulted to `"unknown"` as in `handle_signal` line 101),
with `now` standing for `datetime.now().isoformat()`.  Returns the updated
state and the fill, or `none` on the SELL-with-no-position rejection. -/
def stepFill (st : SimState) (sig : SigMsg) (now : String) :
    SimState × Option Fill :=
  let sid := sig.strategy_id.getD "unknown"
  let session := st.sessions sid
  let current_position := session.positions sig.symbol
  if sig.action = "SELL" ∧ current_position ≤ 0 then
    (st, none)
  else
    let quantity := clampedQty sig current_position
    let base_price := basePriceOf st sig
    let slippage_amount := slippageAmtOf st sig
    let fill_price := fillPriceOf st sig
    let newPos : ℤ :=
      if sig.action = "BUY" then current_position + quantity
      else current_position - quantity
    let fc := st.fill_count + 1
    let fill : Fill :=
      { fill_id := mkFillId fc
        strategy_id := sig.strategy_id
        backtestId := sig.strategy_id
        action := sig.action
        symbol := sig.symbol
        quantity := quantity
        price := round2 fill_price
        base_price := round2 base_price
        timestamp := sig.timestamp.getD now
        commission := st.config.commission
        slippage_amount := round2 slippage_amount
        slippage_pct := st.config.slippage
        fill_mode := st.config.fill_mode
        position_after := newPos }
    let session' : Session :=
      { session with
          positions := fun s => if s = sig.symbol then newPos else session.positions s
          fills := session.fills ++ [fill] }
    ({ st with
        sessions := fun s => if s = sid then session' else st.sessions s
        fill_count := fc },
     some fill)

/-! ## `handle_signal` (lines 93–176) -/

/-- What `handle_signal` does with one signal message. -/
inductive HandleResult where
  | published (f : Fill)
  | rejected (r : Rejection)
  | dropped
  deriving Repr, DecidableEq

/-- Python truthiness of the quantity field:
`not signal.get("quantity")` holds for a missing field or a zero value. -/
def SigMsg.qtyTruthy (sig : SigMsg) : Prop :=
  sig.quantity ≠ none ∧ sig.quantity ≠ some 0

instance (sig : SigMsg) : Decidable sig.qtyTruthy := by
  unfold SigMsg.qtyTruthy; infer_instance

/-- One `handle_signal` call (lines 93–176): validate the message, run
`simulate_fill`, publish the fill and bump the session counters, or publish
a rejection notice with reason `"Invalid position for sell"` for a SELL
(`"Unknown error"` otherwise). -/
def handleSignal (st : SimState) (sig : SigMsg) (now : String) :
    SimState × HandleResult :=
  let sid := sig.strategy_id.getD "unknown"
  if sig.action = "" ∨ ¬ sig.qtyTruthy then
    (st, .dropped)
  else
    match stepFill st sig now with
    | (st', some fill) =>
        let session' := st'.sessions sid
        let session'' :=
          if sig.action = "BUY" then { session' with total_buys := session'.total_buys + 1 }
          else { session' with total_sells := session'.total_sells + 1 }
        ({ st' with sessions := fun s => if s = sid then session'' else st'.sessions s },
         .published fill)
    | (st', none) =>
        (st',
         .rejected
           { strategy_id := sid
             backtestId := sid
             reason := if sig.action = "SELL" then "Invalid position for sell"
                       else "Unknown error"
             original_signal := sig
             timestamp := now })

/-! ## Reset and operation sequences (lines 329–335) -/

/-- `POST /positions/reset` (lines 329–335): clears all sessions and sets
`fill_count` back to 0. -/
def resetAllSessions (st : SimState) : SimState :=
  { st with sessions := fun _ => Session.init, fill_count := 0 }

/-- An operation interleaving signal handling with the reset endpoint. -/
inductive SimOp where
  | sig (s : SigMsg)
  | resetAll
  deriving Repr, DecidableEq

/-- Run a list of operations, collecting in order the fills produced by the
successful `simulate_fill` calls. -/
def runOps (st : SimState) (now : String) : List SimOp → SimState × List Fill
  | [] => (st, [])
  | .sig s :: ops =>
      match (stepFill st s now).2 with
      | some f =>
          ((runOps (stepFill st s now).1 now ops).1,
           f :: (runOps (stepFill st s now).1 now ops).2)
      | none => runOps (stepFill st s now).1 now ops
  | .resetAll :: ops => runOps (resetAllSessions st) now ops

/-! ## Strategy engine: shared pieces

From `src/strategy-engine/strategies/`.  The strategies inherit from
`BaseStrategy` (`base_strategy.py`), a file that is not in the source tree;
the inherited operations are modelled from the spec (§3, §4.1, §4.2) as
marked below. -/

/-- One OHLCV price bar (spec §3); the strategy logic reads only `close`,
and `create_signal` additionally reads `time`. -/
structure Bar where
  time : String := ""
  «open» : ℚ := 0
  high : ℚ := 0
  low : ℚ := 0
  close : ℚ
  volume : ℤ := 0
  deriving Repr, DecidableEq

/-- `SignalType` from `base_strategy.py` (values as used by the strategies). -/
inductive SignalType where
  | BUY
  | SELL
  deriving Repr, DecidableEq

/-- Modelled from the spec (§3 Signal): `base_strategy.py` is missing, so a
Signal is the fixed schema {strategy_id, symbol, action, quantity, price,
timestamp, confidence, reason}; the open variant-specific metadata map
(fast_ma, crossover_type, rsi, …) is not modelled. -/
structure StratSignal where
  strategy_id : String
  symbol : String
  action : SignalType
  quantity : ℤ
  price : ℚ
  timestamp : String
  confidence : ℚ
  reason : String
  deriving Repr, DecidableEq

/-- Modelled from the spec (§3): `create_signal(action, bar, quantity,
confidence, reason, …)` of the missing `base_strategy.py` builds the Signal
record; the price context comes from the bar being processed. -/
def createSignal (strategy_id symbol : String) (action : SignalType)
    (bar : Bar) (quantity : ℤ) (confidence : ℚ) (reason : String) : StratSignal :=
  { strategy_id := strategy_id
    symbol := symbol
    action := action
    quantity := quantity
    price := bar.close
    timestamp := bar.time
    confidence := confidence
    reason := reason }

/-- Modelled from the spec (§3, §4.1 `push`): `update_history` of the missing
`base_strategy.py` appends the close price to `bars_history` and evicts the
oldest entries FIFO when the length exceeds `max_history_size`. -/
def updateHistory (cap : ℕ) (hist : List ℚ) (c : ℚ) : List ℚ :=
  let h := hist ++ [c]
  if cap < h.length then h.drop (h.length - cap) else h

/-- Modelled from the spec (§4.1 `sma`): average of the last `period` prices,
"not ready" (`none`) if the window is shorter than `period`. -/
def getSMA (period : ℕ) (hist : List ℚ) : Option ℚ :=
  if hist.length < period then none
  else some ((hist.drop (hist.length - period)).sum / period)

/-- Modelled from the spec (§4.1 `ema`): smoothing factor α = 2/(period+1),
seeded by the SMA of the first `period` values of the stored window, then
folded over the remainder of the window; "not ready" if too short. -/
def getEMA (period : ℕ) (hist : List ℚ) : Option ℚ :=
  if hist.length < period then none
  else
    let α : ℚ := 2 / (period + 1)
    let seed : ℚ := (hist.take period).sum / period
    some ((hist.drop period).foldl (fun e p => α * p + (1 - α) * e) seed)

/-- Modelled from the spec (§4.1 `rsi`): Wilder-style RSI over the most
recent `period+1` prices — per-step deltas split into gains/losses, simple
averages over `period` steps, RSI = 100 − 100/(1+RS), RSI = 100 when the
average loss is 0; "not ready" if the window is shorter than `period+1`. -/
def getRSI (period : ℕ) (hist : List ℚ) : Option ℚ :=
  if hist.length < period + 1 then none
  else
    let w := hist.drop (hist.length - (period + 1))
    let deltas := (w.zip w.tail).map (fun p => p.2 - p.1)
    let gains := deltas.map (fun d => if 0 < d then d else 0)
    let losses := deltas.map (fun d => if d < 0 then -d else 0)
    let avgGain := gains.sum / period
    let avgLoss := losses.sum / period
    if avgLoss = 0 then some 100
    else some (100 - 100 / (1 + avgGain / avgLoss))

/-- Generic driver: feed a list of bars through a strategy step function,
returning the final state and the per-bar outputs in order (each
`process_bar` call returns at most one signal). -/
def runSteps {σ : Type} (step : σ → Bar → σ × Option StratSignal) :
    σ → List Bar → σ × List (Option StratSignal)
  | s, [] => (s, [])
  | s, b :: bs =>
      ((runSteps step (step s b).1 bs).1,
       (step s b).2 :: (runSteps step (step s b).1 bs).2)

/-! ## Buy-and-hold (`buy_and_hold.py`) -/

/-- Parameters of `BuyAndHoldStrategy` after `initialize` (lines 35–40). -/
structure BHConfig where
  strategy_id : String := "bh"
  symbol : String := "SPY"
  quantity : ℤ := 100
  deriving Repr, DecidableEq

/-- `BuyAndHoldStrategy.process_bar` (lines 42–66): the state is the
`has_bought` flag; emit one BUY on the first bar, nothing thereafter. -/
def bhStep (cfg : BHConfig) (has_bought : Bool) (bar : Bar) :
    Bool × Option StratSignal :=
  if ¬ has_bought then
    (true, some (createSignal cfg.strategy_id cfg.symbol .BUY bar cfg.quantity 1
      "initial_buy"))
  else (has_bought, none)

/-! ## MA crossover (`ma_crossover.py`) -/

/-- Parameters of `MACrossoverStrategy` after `initialize` (lines 43–68). -/
structure MAConfig where
  strategy_id : String := "ma"
  symbol : String := "SPY"
  quantity : ℤ := 100
  fast_period : ℕ := 20
  slow_period : ℕ := 50
  ma_type : String := "sma"
  deriving Repr, DecidableEq

/-- `self.max_history_size = max(100, self.slow_period + 10)` (line 62). -/
def MAConfig.maxHistorySize (cfg : MAConfig) : ℕ := max 100 (cfg.slow_period + 10)

/-- Mutable state of an MA crossover instance (lines 38–41, 64–66). -/
structure MAState where
  bars_history : List ℚ := []
  previous_state : Option String := none
  position : Option String := none
  deriving Repr, DecidableEq

/-- The MA of the given period per the configured `ma_type`
(`process_bar` lines 89–95: `'sma'` uses SMA, anything else the EMA branch). -/
def computeMA (cfg : MAConfig) (period : ℕ) (hist : List ℚ) : Option ℚ :=
  if cfg.ma_type = "sma" then getSMA period hist else getEMA period hist

/-- The crossover-detection block of `MACrossoverStrategy.process_bar`
(lines 104–145): given the freshly computed `current_state`, return the new
`position` and the emitted signal — a golden-cross BUY on a transition to
"above" while not long, a death-cross SELL on a transition to "below" while
long, nothing otherwise (in particular when there is no previous state). -/
def maSignalDecision (cfg : MAConfig) (s : MAState) (bar : Bar)
    (current_state : String) : Option String × Option StratSignal :=
  if s.previous_state ≠ none ∧ s.previous_state ≠ some current_state then
    if current_state = "above" ∧ s.position ≠ some "long" then
      (some "long",
       some (createSignal cfg.strategy_id cfg.symbol .BUY bar cfg.quantity
         (85/100)
         ("Fast " ++ cfg.ma_type.toUpper ++ "(" ++ toString cfg.fast_period ++
          ") crossed above Slow " ++ cfg.ma_type.toUpper ++ "(" ++
          toString cfg.slow_period ++ ")")))
    else if current_state = "below" ∧ s.position = some "long" then
      (none,
       some (createSignal cfg.strategy_id cfg.symbol .SELL bar cfg.quantity
         (85/100)
         ("Fast " ++ cfg.ma_type.toUpper ++ "(" ++ toString cfg.fast_period ++
          ") crossed below Slow " ++ cfg.ma_type.toUpper ++ "(" ++
          toString cfg.slow_period ++ ")")))
    else (s.position, none)
  else (s.position, none)

/-- `MACrossoverStrategy.process_bar` (lines 70–156).  Early returns before
enough history or when an MA is unavailable leave `previous_state` and
`position` untouched; in the computable case `previous_state` is set to
`current_state` (line 148) whether or not a crossover fired; the
`self.state` status-reporting dict (lines 151–154, observability only) is
not modelled. -/
def maStep (cfg : MAConfig) (s : MAState) (bar : Bar) :
    MAState × Option StratSignal :=
  let hist := updateHistory cfg.maxHistorySize s.bars_history bar.close
  if hist.length < cfg.slow_period then
    ({ s with bars_history := hist }, none)
  else
    match computeMA cfg cfg.fast_period hist, computeMA cfg cfg.slow_period hist with
    | some fast_ma, some slow_ma =>
        let current_state := if fast_ma > slow_ma then "above" else "below"
        let ps := maSignalDecision cfg s bar current_state
        ({ bars_history := hist, previous_state := some current_state,
           position := ps.1 }, ps.2)
    | _, _ => ({ s with bars_history := hist }, none)

/-- State after feeding a bar list to a fresh MA crossover instance. -/
def runMAState (cfg : MAConfig) (bars : List Bar) : MAState :=
  (runSteps (maStep cfg) {} bars).1

/-- Per-bar outputs of a fresh MA crossover instance over a bar list. -/
def runMAOutputs (cfg : MAConfig) (bars : List Bar) : List (Option StratSignal) :=
  (runSteps (maStep cfg) {} bars).2

/-! ## RSI mean-reversion (`rsi_strategy.py`) -/

/-- Parameters of `RSIStrategy` after `initialize` (lines 50–78). -/
structure RSIConfig where
  strategy_id : String := "rsi"
  symbol : String := "SPY"
  quantity : ℤ := 100
  rsi_period : ℕ := 14
  oversold_threshold : ℚ := 30
  overbought_threshold : ℚ := 70
  use_confirmation : Bool := true
  deriving Repr, DecidableEq

/-- `self.max_history_size = max(100, self.rsi_period + 20)` (line 72). -/
def RSIConfig.maxHistorySize (cfg : RSIConfig) : ℕ := max 100 (cfg.rsi_period + 20)

/-- Mutable state of an RSI instance (lines 43–48, 74–78). -/
structure RSIState where
  bars_history : List ℚ := []
  position : Option String := none
  last_rsi : Option ℚ := none
  in_oversold_zone : Bool := false
  in_overbought_zone : Bool := false
  deriving Repr, DecidableEq

/-- `RSIStrategy._check_confirmation_signals` (lines 135–187), acting on the
state after the zone flags were set for the current bar: BUY when recovering
from oversold and not long (clears the oversold flag), SELL when weakening
from overbought while long (clears the overbought flag). -/
def checkConfirmationSignals (cfg : RSIConfig) (s : RSIState) (bar : Bar)
    (current_rsi : ℚ) : RSIState × Option StratSignal :=
  if s.in_oversold_zone = true ∧ current_rsi > cfg.oversold_threshold ∧
      s.position ≠ some "long" then
    ({ s with position := some "long", in_oversold_zone := false },
     some (createSignal cfg.strategy_id cfg.symbol .BUY bar cfg.quantity (8/10)
       "rsi_oversold_recovery"))
  else if s.in_overbought_zone = true ∧ current_rsi < cfg.overbought_threshold ∧
      s.position = some "long" then
    ({ s with position := none, in_overbought_zone := false },
     some (createSignal cfg.strategy_id cfg.symbol .SELL bar cfg.quantity (8/10)
       "rsi_overbought_reversal"))
  else (s, none)

/-- `RSIStrategy._check_immediate_signals` (lines 189–239): BUY on the bar
the RSI first drops below the oversold threshold (previous RSI absent or ≥
threshold) while not long; SELL symmetrically on entering overbought while
long. -/
def checkImmediateSignals (cfg : RSIConfig) (s : RSIState) (bar : Bar)
    (current_rsi : ℚ) : RSIState × Option StratSignal :=
  if current_rsi < cfg.oversold_threshold ∧
      (s.last_rsi = none ∨ ∃ lr, s.last_rsi = some lr ∧ lr ≥ cfg.oversold_threshold) ∧
      s.position ≠ some "long" then
    ({ s with position := some "long" },
     some (createSignal cfg.strategy_id cfg.symbol .BUY bar cfg.quantity (3/4)
       "rsi_oversold"))
  else if current_rsi > cfg.overbought_threshold ∧
      (s.last_rsi = none ∨ ∃ lr, s.last_rsi = some lr ∧ lr ≤ cfg.overbought_threshold) ∧
      s.position = some "long" then
    ({ s with position := none },
     some (createSignal cfg.strategy_id cfg.symbol .SELL bar cfg.quantity (3/4)
       "rsi_overbought"))
  else (s, none)

/-- `RSIStrategy.process_bar` (lines 85–133): push the close, bail out while
the RSI is not computable (state untouched apart from the history), set the
sticky zone-entry flags, dispatch on the mode, then record `last_rsi`; the
`self.state` status-reporting dict (lines 128–131) is not modelled. -/
def rsiStep (cfg : RSIConfig) (s : RSIState) (bar : Bar) :
    RSIState × Option StratSignal :=
  let hist := updateHistory cfg.maxHistorySize s.bars_history bar.close
  if hist.length < cfg.rsi_period + 1 then
    ({ s with bars_history := hist }, none)
  else
    match getRSI cfg.rsi_period hist with
    | none => ({ s with bars_history := hist }, none)
    | some current_rsi =>
        let s₁ : RSIState :=
          { s with
              bars_history := hist
              in_oversold_zone :=
                if current_rsi < cfg.oversold_threshold then true
                else s.in_oversold_zone
              in_overbought_zone :=
                if current_rsi > cfg.overbought_threshold then true
                else s.in_overbought_zone }
        let res :=
          if cfg.use_confirmation then checkConfirmationSignals cfg s₁ bar current_rsi
          else checkImmediateSignals cfg s₁ bar current_rsi
        ({ res.1 with last_rsi := some current_rsi }, res.2)

/-- State after feeding a bar list to a fresh RSI instance. -/
def runRSIState (cfg : RSIConfig) (bars : List Bar) : RSIState :=
  (runSteps (rsiStep cfg) {} bars).1

/-- Per-bar outputs of a fresh RSI instance over a bar list. -/
def runRSIOutputs (cfg : RSIConfig) (bars : List Bar) : List (Option StratSignal) :=
  (runSteps (rsiStep cfg) {} bars).2

/-! ## Strategy registry (`strategy_registry.py`) -/

/-- The parameter dict passed to `create_strategy` / `initialize`,
restricted to the keys the three built-in strategies read; an absent key is
`none` (`self.params.get(key, default)` supplies the variant default). -/
structure StratParams where
  symbol : Option String := none
  quantity : Option ℤ := none
  fast_period : Option ℕ := none
  slow_period : Option ℕ := none
  ma_type : Option String := none
  rsi_period : Option ℕ := none
  oversold_threshold : Option ℚ := none
  overbought_threshold : Option ℚ := none
  use_confirmation : Option Bool := none
  deriving Repr, DecidableEq

/-- The three built-in strategy classes registered by discovery. -/
inductive StratKind where
  | buyHold
  | maCross
  | rsiStrat
  deriving Repr, DecidableEq

/-- An initialized strategy instance (constructor + fresh per-variant state). -/
inductive StrategyInstance where
  | buyHold (cfg : BHConfig) (has_bought : Bool)
  | maCross (cfg : MAConfig) (st : MAState)
  | rsiStrat (cfg : RSIConfig) (st : RSIState)
  deriving Repr, DecidableEq

/-- `BuyAndHoldStrategy.initialize` (lines 35–40): no validation. -/
def initBuyHold (strategy_id : String) (params : StratParams) :
    Except String StrategyInstance :=
  .ok (.buyHold
    { strategy_id := strategy_id
      symbol := params.symbol.getD "SPY"
      quantity := params.quantity.getD 100 }
    false)

/-- `MACrossoverStrategy.initialize` (lines 43–68): parameter extraction
with defaults, then the two `ValueError` validations, then fresh state. -/
def initMACross (strategy_id : String) (params : StratParams) :
    Except String StrategyInstance :=
  let fast_period := params.fast_period.getD 20
  let slow_period := params.slow_period.getD 50
  let ma_type := (params.ma_type.getD "sma").toLower
  if fast_period ≥ slow_period then
    .error "fast_period must be less than slow_period"
  else if ¬ (ma_type = "sma" ∨ ma_type = "ema") then
    .error "ma_type must be 'sma' or 'ema'"
  else
    .ok (.maCross
      { strategy_id := strategy_id
        symbol := params.symbol.getD "SPY"
        quantity := params.quantity.getD 100
        fast_period := fast_period
        slow_period := slow_period
        ma_type := ma_type }
      {})

/-- `RSIStrategy.initialize` (lines 50–78): parameter extraction with
defaults, threshold and period validations, then fresh state. -/
def initRSI (strategy_id : String) (params : StratParams) :
    Except String StrategyInstance :=
  let rsi_period := params.rsi_period.getD 14
  let oversold := params.oversold_threshold.getD 30
  let overbought := params.overbought_threshold.getD 70
  if ¬ (0 < oversold ∧ oversold < overbought ∧ overbought < 100) then
    .error "Thresholds must satisfy: 0 < oversold < overbought < 100"
  else if rsi_period < 2 then
    .error "RSI period must be at least 2"
  else
    .ok (.rsiStrat
      { strategy_id := strategy_id
        symbol := params.symbol.getD "SPY"
        quantity := params.quantity.getD 100
        rsi_period := rsi_period
        oversold_threshold := oversold
        overbought_threshold := overbought
        use_confirmation := params.use_confirmation.getD true }
      {})

/-- Construct a bare instance and run its `initialize`
(`strategy_class(); strategy_instance.initialize(strategy_id, params or {})`,
lines 150–152); a `ValueError` raised by `initialize` propagates. -/
def initStrategy (k : StratKind) (strategy_id : String) (params : StratParams) :
    Except String StrategyInstance :=
  match k with
  | .buyHold => initBuyHold strategy_id params
  | .maCross => initMACross strategy_id params
  | .rsiStrat => initRSI strategy_id params

/-- `self._strategies`: strategy-type name → registered class, in
registration order (a Python dict preserves insertion order). -/
def Registry := List (String × StratKind)

/-- The `ValueError` message of `create_strategy` for an unregistered name
(lines 143–148): the comma-joined list of the registered names. -/
def unknownStrategyMsg (name : String) (available : List String) : String :=
  "Strategy '" ++ name ++ "' not found. Available strategies: " ++
    String.intercalate ", " available

/-- How `create_strategy` fails: an unknown name (message carries every
currently registered name), or a `ValueError` propagated out of the
variant's `initialize`. -/
inductive CreateError where
  | unknownStrategy (message : String) (available : List String)
  | invalidParameters (message : String)
  deriving Repr, DecidableEq

/-- `StrategyRegistry.create_strategy` (lines 123–154): reject an
unregistered name with the message listing all registered names; otherwise
construct the class, call `initialize`, and propagate its errors. -/
def createStrategy (reg : Registry) (name strategy_id : String)
    (params : StratParams) : Except CreateError StrategyInstance :=
  match List.lookup name reg with
  | none =>
      .error (.unknownStrategy (unknownStrategyMsg name (reg.map Prod.fst))
        (reg.map Prod.fst))
  | some k => (initStrategy k strategy_id params).mapError .invalidParameters

/-! ## MA relationship recomputed from the close sequence (for C5) -/

/-- The rolling window the instance holds after pushing a close sequence:
the last `cap` entries. -/
def windowAt (cap : ℕ) (closes : List ℚ) : List ℚ :=
  closes.drop (closes.length - cap)

/-- The fast/slow MA relationship the instance computes at the end of a
close sequence: `"above"`/`"below"` once both MAs are computable on the
rolling window, `none` before. -/
def relAt (cfg : MAConfig) (closes : List ℚ) : Option String :=
  let w := windowAt cfg.maxHistorySize closes
  if w.length < cfg.slow_period then none
  else
    match computeMA cfg cfg.fast_period w, computeMA cfg cfg.slow_period w with
    | some fast_ma, some slow_ma => some (if fast_ma > slow_ma then "above" else "below")
    | _, _ => none

/-- The RSI value the instance computes at the end of a close sequence
(`none` while not computable). -/
def rsiAt (cfg : RSIConfig) (closes : List ℚ) : Option ℚ :=
  getRSI cfg.rsi_period (windowAt cfg.maxHistorySize closes)

/-! ## Derived notions used by the statements -/

/-- Every per-symbol position in every session is non-negative. -/
def allPositionsNonneg (st : SimState) : Prop :=
  ∀ sid sym, 0 ≤ (st.sessions sid).positions sym

/-- A sequence of `simulate_fill` calls. -/
def runFills (st : SimState) (now : String) (sigs : List SigMsg) : SimState :=
  sigs.foldl (fun s sig => (stepFill s sig now).1) st

/-! ## Concrete inputs used by witnesses and counterexamples -/

/-- A BUY at a low base price, where the 2-decimal rounding of the fill
record absorbs the whole slippage. -/
def lowPriceBuy : SigMsg :=
  { strategy_id := some "s1", symbol := "SPY", action := "BUY",
    quantity := some 100, price := some 1, timestamp := none }

/-- A simulator state whose session "s1" holds 7 shares of every symbol. -/
def oversizedSellState : SimState :=
  { SimState.init with
      sessions := fun _ => { Session.init with positions := fun _ => 7 } }

/-- A SELL bigger than the 7-share position of `oversizedSellState`. -/
def oversizedSell : SigMsg :=
  { strategy_id := some "s1", symbol := "SPY", action := "SELL",
    quantity := some 50, price := some 450, timestamp := none }

/-- A SELL sent to a fresh session holding no position. -/
def sellNoPosition : SigMsg :=
  { strategy_id := some "s1", symbol := "SPY", action := "SELL",
    quantity := some 10, price := none, timestamp := none }

/-- A plain BUY signal. -/
def plainBuy : SigMsg :=
  { strategy_id := some "s1", symbol := "SPY", action := "BUY",
    quantity := some 100, price := some 450, timestamp := none }
/-- Bars carrying only close prices. -/
def closesToBars (cs : List ℚ) : List Bar := cs.map (fun c => { close := c })

/-- The spec-scenario MA crossover configuration. -/
def maScenarioCfg : MAConfig := { fast_period := 2, slow_period := 3 }

/-- The spec-scenario bar sequence. -/
def maScenarioBars : List Bar := closesToBars [10, 10, 10, 20, 20, 20]

/-- The RSI confirmation scenario: period 2, thresholds 30/70, closes
dipping to RSI 0 at bar 3 and recovering to RSI 37.5 at bar 4. -/
def rsiScenarioCfg : RSIConfig := { rsi_period := 2 }

/-- Bars of the RSI confirmation scenario. -/
def rsiScenarioBars : List Bar := closesToBars [10, 9, 8, 43/5]

/-- The registry as populated by discovery of the three built-ins. -/
def demoRegistry : Registry :=
  [("buy_hold", .buyHold), ("ma_cross", .maCross), ("rsi", .rsiStrat)]

/-- Invalid MA parameters: fast ≥ slow. -/
def badMAParams : StratParams := { fast_period := some 5, slow_period := some 3 }

end Utr1

namespace Utr1

/-! # Theorems

## Execution simulator: helper lemmas -/

/-- A rejected `simulate_fill` leaves the simulator state untouched. -/
theorem stepFill_none (st : SimState) (sig : SigMsg) (now : String)
    (h : (stepFill st sig now).2 = none) : stepFill st sig now = (st, none) := by
  by_cases hg : sig.action = "SELL" ∧
      (st.sessions (sig.strategy_id.getD "unknown")).positions sig.symbol ≤ 0
  · unfold stepFill
    rw [if_pos hg]
  · exfalso
    unfold stepFill at h
    rw [if_neg hg] at h
    exact absurd h (by simp)

/-- A successful `simulate_fill` increments the process-wide counter and
stamps the fill with it. -/
theorem stepFill_some_id (st : SimState) (sig : SigMsg) (now : String) (f : Fill)
    (h : (stepFill st sig now).2 = some f) :
    f.fill_id = mkFillId (st.fill_count + 1) ∧
    (stepFill st sig now).1.fill_count = st.fill_count + 1 := by
  by_cases hg : sig.action = "SELL" ∧
      (st.sessions (sig.strategy_id.getD "unknown")).positions sig.symbol ≤ 0
  · unfold stepFill at h
    rw [if_pos hg] at h
    exact absurd h (by simp)
  · unfold stepFill at h ⊢
    rw [if_neg hg] at h ⊢
    obtain rfl : _ = f := Option.some.inj h
    exact ⟨rfl, rfl⟩

theorem runOps_sig_none (st : SimState) (now : String) (s : SigMsg)
    (ops : List SimOp) (h : (stepFill st s now).2 = none) :
    runOps st now (.sig s :: ops) = runOps st now ops := by
  have he := stepFill_none st s now h
  conv_lhs => unfold runOps
  rw [h, he]

theorem runOps_sig_some (st : SimState) (now : String) (s : SigMsg)
    (ops : List SimOp) (f : Fill) (h : (stepFill st s now).2 = some f) :
    runOps st now (.sig s :: ops) =
      ((runOps (stepFill st s now).1 now ops).1,
       f :: (runOps (stepFill st s now).1 now ops).2) := by
  conv_lhs => unfold runOps
  rw [h]

/-- One `simulate_fill` call preserves non-negativity of all positions when
the signal is a BUY or SELL of strictly positive quantity. -/
theorem stepFill_nonneg (st : SimState) (sig : SigMsg) (now : String)
    (h0 : allPositionsNonneg st) (hq : 0 < sig.qty)
    (ha : sig.action = "BUY" ∨ sig.action = "SELL") :
    allPositionsNonneg (stepFill st sig now).1 := by
  set sid := sig.strategy_id.getD "unknown" with hsid
  set pos := (st.sessions sid).positions sig.symbol with hpos
  by_cases hg : sig.action = "SELL" ∧ pos ≤ 0
  · unfold stepFill
    simp only [← hsid, ← hpos, if_pos hg]
    exact h0
  · have hnewPos : 0 ≤ (if sig.action = "BUY" then pos + clampedQty sig pos
        else pos - clampedQty sig pos) := by
      rcases ha with hb | hs
      · rw [if_pos hb]
        have hcl : clampedQty sig pos = sig.qty := by
          unfold clampedQty
          rw [if_neg]
          rintro ⟨h1, -⟩
          rw [hb] at h1
          exact absurd h1 (by decide)
        have := h0 sid sig.symbol
        rw [← hpos] at this
        omega
      · have hb : ¬ sig.action = "BUY" := by
          rw [hs]; intro h; exact absurd h (by decide)
        rw [if_neg hb]
        have hposPos : 0 < pos := by
          rcases lt_or_le 0 pos with h | h
          · exact h
          · exact absurd ⟨hs, h⟩ hg
        unfold clampedQty
        split
        · omega
        · next hcond =>
            have : ¬ sig.qty > pos := fun hgt => hcond ⟨hs, hgt⟩
            omega
    unfold stepFill
    simp only [← hsid, ← hpos, if_neg hg]
    intro sid' sym'
    show 0 ≤ (if sid' = sid then _ else st.sessions sid').positions sym'
    by_cases h1 : sid' = sid
    · rw [if_pos h1]
      show 0 ≤ if sym' = sig.symbol then _ else (st.sessions sid).positions sym'
      by_cases h2 : sym' = sig.symbol
      · rw [if_pos h2]
        exact hnewPos
      · rw [if_neg h2]
        exact h0 sid sym'
    · rw [if_neg h1]
      exact h0 sid' sym'

/-! ## C1 — slippage arithmetic of `simulate_fill` -/

/-- C1 (amended): for every Fill returned by `simulate_fill`, the *computed*
slippage amount equals `base_price × slippage_pct/100` exactly, the computed
BUY fill price is `base + slippage` (strictly above the base when the base
price and the slippage percentage are positive) and the non-BUY fill price
is `base − slippage` (strictly below); the Fill *records* these three
quantities rounded to 2 decimals, so the recorded fields satisfy the
relations only up to rounding. -/
theorem simulate_fill_slippage_unrounded (st : SimState) (sig : SigMsg)
    (now : String) (f : Fill) (hf : (stepFill st sig now).2 = some f) :
    slippageAmtOf st sig = basePriceOf st sig * (st.config.slippage / 100) ∧
    f.slippage_amount = round2 (slippageAmtOf st sig) ∧
    f.base_price = round2 (basePriceOf st sig) ∧
    f.price = round2 (fillPriceOf st sig) ∧
    (sig.action = "BUY" →
      fillPriceOf st sig = basePriceOf st sig + slippageAmtOf st sig ∧
      (0 < basePriceOf st sig → 0 < st.config.slippage →
        basePriceOf st sig < fillPriceOf st sig)) ∧
    (sig.action ≠ "BUY" →
      fillPriceOf st sig = basePriceOf st sig - slippageAmtOf st sig ∧
      (0 < basePriceOf st sig → 0 < st.config.slippage →
        fillPriceOf st sig < basePriceOf st sig)) := by
  have hslip : slippageAmtOf st sig =
      basePriceOf st sig * (st.config.slippage / 100) := rfl
  have hpos : 0 < basePriceOf st sig → 0 < st.config.slippage →
      0 < slippageAmtOf st sig := by
    intro hb hs
    rw [hslip]
    exact mul_pos hb (by positivity)
  unfold stepFill at hf
  by_cases h : sig.action = "SELL" ∧
      (st.sessions (sig.strategy_id.getD "unknown")).positions sig.symbol ≤ 0
  · simp only [if_pos h] at hf
    exact absurd hf (by simp)
  · simp only [if_neg h] at hf
    obtain rfl : _ = f := Option.some.inj hf
    refine ⟨hslip, rfl, rfl, rfl, ?_, ?_⟩
    · intro hb
      have : fillPriceOf st sig = basePriceOf st sig + slippageAmtOf st sig := by
        unfold fillPriceOf
        rw [if_pos hb]
      refine ⟨this, fun h1 h2 => ?_⟩
      rw [this]
      linarith [hpos h1 h2]
    · intro hb
      have : fillPriceOf st sig = basePriceOf st sig - slippageAmtOf st sig := by
        unfold fillPriceOf
        rw [if_neg hb]
      refine ⟨this, fun h1 h2 => ?_⟩
      rw [this]
      linarith [hpos h1 h2]

/-- C1 counterexample: a BUY at base price 1.00 with the default 0.01%
slippage yields a Fill whose recorded price equals the recorded base price
(not strictly greater) and whose recorded slippage amount (0.00, rounded
from 0.0001) differs from `base_price × slippage_pct/100`. -/
theorem fill_rounded_fields_counterexample :
    ∃ f : Fill, (stepFill SimState.init lowPriceBuy "t").2 = some f ∧
      lowPriceBuy.action = "BUY" ∧
      ¬ f.base_price < f.price ∧
      f.slippage_amount ≠ f.base_price * (SimState.init.config.slippage / 100) := by
  refine ⟨{ fill_id := "fill_1", strategy_id := some "s1", backtestId := some "s1",
            action := "BUY", symbol := "SPY", quantity := 100, price := 1,
            base_price := 1, timestamp := "t", commission := 1,
            slippage_amount := 0, slippage_pct := 1/100,
            fill_mode := "realistic", position_after := 100 }, ?_, rfl, ?_, ?_⟩
  · with_unfolding_all decide
  · with_unfolding_all decide
  · with_unfolding_all decide

/-- C1 witness: the amended statement applied to the same concrete BUY. -/
theorem simulate_fill_slippage_unrounded_witness :
    (stepFill SimState.init lowPriceBuy "t").2 =
      some { fill_id := "fill_1", strategy_id := some "s1", backtestId := some "s1",
             action := "BUY", symbol := "SPY", quantity := 100, price := 1,
             base_price := 1, timestamp := "t", commission := 1,
             slippage_amount := 0, slippage_pct := 1/100,
             fill_mode := "realistic", position_after := 100 } ∧
    slippageAmtOf SimState.init lowPriceBuy =
      basePriceOf SimState.init lowPriceBuy * (SimState.init.config.slippage / 100) ∧
    basePriceOf SimState.init lowPriceBuy < fillPriceOf SimState.init lowPriceBuy := by
  have hf : (stepFill SimState.init lowPriceBuy "t").2 =
      some { fill_id := "fill_1", strategy_id := some "s1", backtestId := some "s1",
             action := "BUY", symbol := "SPY", quantity := 100, price := 1,
             base_price := 1, timestamp := "t", commission := 1,
             slippage_amount := 0, slippage_pct := 1/100,
             fill_mode := "realistic", position_after := 100 } := by
    with_unfolding_all decide
  have h := simulate_fill_slippage_unrounded SimState.init lowPriceBuy "t" _ hf
  refine ⟨hf, h.1, ?_⟩
  exact (h.2.2.2.2.1 rfl).2 (by norm_num [basePriceOf, SimState.init, lowPriceBuy])
    (by norm_num [SimState.init, SimConfig.default])

/-! ## C2 — oversized SELL is clamped, not rejected -/

/-- C2: a SELL whose quantity exceeds a strictly positive current position
yields a Fill (not a rejection) with the quantity clamped to the current
position and `position_after = 0` (also in the updated ledger). -/
theorem simulate_fill_sell_clamped (st : SimState) (sig : SigMsg) (now : String)
    (hact : sig.action = "SELL")
    (hpos : 0 < (st.sessions (sig.strategy_id.getD "unknown")).positions sig.symbol)
    (hq : (st.sessions (sig.strategy_id.getD "unknown")).positions sig.symbol < sig.qty) :
    ∃ f : Fill, (stepFill st sig now).2 = some f ∧
      f.quantity = (st.sessions (sig.strategy_id.getD "unknown")).positions sig.symbol ∧
      f.position_after = 0 ∧
      ((stepFill st sig now).1.sessions (sig.strategy_id.getD "unknown")).positions
        sig.symbol = 0 := by
  set sid := sig.strategy_id.getD "unknown" with hsid
  set pos := (st.sessions sid).positions sig.symbol with hpos'
  have hguard : ¬ (sig.action = "SELL" ∧ pos ≤ 0) := by
    rintro ⟨-, h⟩; omega
  have hclamp : clampedQty sig pos = pos := by
    unfold clampedQty
    rw [if_pos ⟨hact, hq⟩]
  have hnb : ¬ sig.action = "BUY" := by rw [hact]; intro h; exact absurd h (by decide)
  unfold stepFill
  simp only [← hsid, ← hpos', if_neg hguard, hclamp, if_neg hnb]
  refine ⟨_, rfl, rfl, ?_, ?_⟩
  · show pos - pos = 0
    omega
  · simp

/-- C2 witness: selling 50 against a 7-share position fills 7 and zeroes
the position. -/
theorem simulate_fill_sell_clamped_witness :
    oversizedSell.action = "SELL" ∧
    0 < (oversizedSellState.sessions "s1").positions "SPY" ∧
    (oversizedSellState.sessions "s1").positions "SPY" < oversizedSell.qty ∧
    ∃ f : Fill, (stepFill oversizedSellState oversizedSell "t").2 = some f ∧
      f.quantity = (oversizedSellState.sessions "s1").positions "SPY" ∧
      f.position_after = 0 ∧
      ((stepFill oversizedSellState oversizedSell "t").1.sessions "s1").positions
        "SPY" = 0 :=
  ⟨rfl, by decide, by decide,
   simulate_fill_sell_clamped oversizedSellState oversizedSell "t" rfl
     (by decide) (by decide)⟩

/-! ## C3 — SELL with no position -/

/-- C3 (amended): a SELL against a non-positive position makes
`simulate_fill` return no Fill, and `handle_signal` publishes a Rejection —
but its reason string is `"Invalid position for sell"`, not
`"no position to sell"` (the latter only appears in a console log inside
`simulate_fill`). -/
theorem sell_no_position_rejected (st : SimState) (sig : SigMsg) (now : String)
    (hact : sig.action = "SELL") (hq : sig.qtyTruthy)
    (hpos : (st.sessions (sig.strategy_id.getD "unknown")).positions sig.symbol ≤ 0) :
    (stepFill st sig now).2 = none ∧
    handleSignal st sig now =
      (st, .rejected
        { strategy_id := sig.strategy_id.getD "unknown"
          backtestId := sig.strategy_id.getD "unknown"
          reason := "Invalid position for sell"
          original_signal := sig
          timestamp := now }) := by
  have hstep : stepFill st sig now = (st, none) := by
    unfold stepFill
    rw [if_pos ⟨hact, hpos⟩]
  have hne : ¬ (sig.action = "" ∨ ¬ sig.qtyTruthy) := by
    rw [hact]
    rintro (h | h)
    · exact absurd h (by decide)
    · exact h hq
  refine ⟨by rw [hstep], ?_⟩
  unfold handleSignal
  rw [if_neg hne, hstep]
  simp only [if_pos hact]

/-- C3 witness: the amended statement at a concrete SELL on a fresh session. -/
theorem sell_no_position_rejected_witness :
    sellNoPosition.action = "SELL" ∧ sellNoPosition.qtyTruthy ∧
    (SimState.init.sessions "s1").positions "SPY" ≤ 0 ∧
    (stepFill SimState.init sellNoPosition "t").2 = none ∧
    handleSignal SimState.init sellNoPosition "t" =
      (SimState.init, .rejected
        { strategy_id := "s1", backtestId := "s1",
          reason := "Invalid position for sell",
          original_signal := sellNoPosition, timestamp := "t" }) :=
  ⟨rfl, by decide, by decide,
   sell_no_position_rejected SimState.init sellNoPosition "t" rfl (by decide) (by decide)⟩

/-- C3 counterexample: the published rejection for a SELL on an empty
session carries reason `"Invalid position for sell"`, which is not the
string `"no position to sell"` claimed by the spec. -/
theorem rejection_reason_counterexample :
    (handleSignal SimState.init sellNoPosition "t").2 =
      .rejected
        { strategy_id := "s1", backtestId := "s1",
          reason := "Invalid position for sell",
          original_signal := sellNoPosition, timestamp := "t" } ∧
    ("Invalid position for sell" : String) ≠ "no position to sell" := by
  constructor
  · with_unfolding_all decide
  · decide

/-! ## C8 — fill id monotonicity -/

/-- C8 (amended): over any sequence of operations containing no reset, the
fills produced by successive successful `simulate_fill` calls carry the
consecutive ids `fill_(k+1), fill_(k+2), …` (where `k` is the counter value
at the start), so later fills have strictly larger numeric suffixes; a
positions reset sets the counter back to 0, so ids repeat across resets. -/
theorem fill_ids_between_resets (st : SimState) (now : String) (ops : List SimOp)
    (hnr : SimOp.resetAll ∉ ops) :
    ((runOps st now ops).2).map Fill.fill_id =
      (List.range' (st.fill_count + 1) ((runOps st now ops).2).length).map mkFillId := by
  induction ops generalizing st with
  | nil => simp [runOps]
  | cons op ops ih =>
      match op with
      | .resetAll => exact absurd (List.mem_cons_self _ _) hnr
      | .sig s =>
          have hnr' : SimOp.resetAll ∉ ops := fun hm => hnr (List.mem_cons_of_mem _ hm)
          cases hout : (stepFill st s now).2 with
          | none =>
              rw [runOps_sig_none st now s ops hout]
              exact ih st hnr'
          | some f =>
              rw [runOps_sig_some st now s ops f hout]
              obtain ⟨hid, hc⟩ := stepFill_some_id st s now f hout
              have hih := ih (stepFill st s now).1 hnr'
              rw [hc] at hih
              simp only [List.map_cons, List.length_cons, List.range'_succ, hid]
              rw [hih]

/-- C8 counterexample: a fill, a positions reset, then another fill — the
two successive fills both get `fill_id = "fill_1"`, so the later fill id is
not strictly greater than the earlier one. -/
theorem fill_id_reset_counterexample :
    ((runOps SimState.init "t" [.sig plainBuy, .resetAll, .sig plainBuy]).2).map
        Fill.fill_id = ["fill_1", "fill_1"] := by
  with_unfolding_all decide

/-- C8 witness: two fills with no reset get ids `fill_1, fill_2`. -/
theorem fill_ids_between_resets_witness :
    SimOp.resetAll ∉ ([.sig plainBuy, .sig plainBuy] : List SimOp) ∧
    ((runOps SimState.init "t" [.sig plainBuy, .sig plainBuy]).2).map Fill.fill_id =
      (List.range' 1
        ((runOps SimState.init "t" [.sig plainBuy, .sig plainBuy]).2).length).map
        mkFillId :=
  ⟨by decide, fill_ids_between_resets SimState.init "t" _ (by decide)⟩

/-! ## C10 — positions never go negative -/

/-- C10: starting from non-negative positions, any sequence of
`simulate_fill` calls carrying BUY/SELL signals of strictly positive
quantity leaves every per-symbol position in every session non-negative. -/
theorem positions_nonneg_invariant (st : SimState) (now : String)
    (sigs : List SigMsg) (h0 : allPositionsNonneg st)
    (hs : ∀ sig ∈ sigs, 0 < sig.qty ∧ (sig.action = "BUY" ∨ sig.action = "SELL")) :
    allPositionsNonneg (runFills st now sigs) := by
  induction sigs generalizing st with
  | nil => exact h0
  | cons sig sigs ih =>
      have h1 := hs sig (List.mem_cons_self _ _)
      exact ih (stepFill st sig now).1
        (stepFill_nonneg st sig now h0 h1.1 h1.2)
        (fun s hm => hs s (List.mem_cons_of_mem _ hm))

/-- C10 witness: a BUY of 100 followed by an oversized SELL of 150 and a
further SELL of 10 keeps all positions non-negative. -/
theorem positions_nonneg_invariant_witness :
    allPositionsNonneg (runFills SimState.init "t"
      [{ strategy_id := some "s1", symbol := "SPY", action := "BUY",
         quantity := some 100, price := some 450, timestamp := none },
       { strategy_id := some "s1", symbol := "SPY", action := "SELL",
         quantity := some 150, price := some 450, timestamp := none },
       { strategy_id := some "s1", symbol := "SPY", action := "SELL",
         quantity := some 10, price := some 450, timestamp := none }]) :=
  positions_nonneg_invariant SimState.init "t" _
    (fun _ _ => le_refl 0) (by decide)

end Utr1

namespace Utr1

/-! ## C4, C6, C9 — strategy scenarios and registry contract -/

/-- Once bought, a buy-and-hold instance never signals again. -/
theorem bhStep_after_buy (cfg : BHConfig) (bars : List Bar) :
    (runSteps (bhStep cfg) true bars).2 = List.replicate bars.length none := by
  induction bars with
  | nil => rfl
  | cons b bs ih =>
      exact congrArg (List.cons none) ih

/-- C6 -/
theorem buy_and_hold_single_signal (cfg : BHConfig) (bars : List Bar)
    (hne : bars ≠ []) :
    ∃ sig : StratSignal,
      (runSteps (bhStep cfg) false bars).2 =
        some sig :: List.replicate (bars.length - 1) none ∧
      sig.action = .BUY ∧ sig.quantity = cfg.quantity := by
  match bars with
  | [] => exact absurd rfl hne
  | b :: bs =>
      refine ⟨createSignal cfg.strategy_id cfg.symbol .BUY b cfg.quantity 1
        "initial_buy", ?_, rfl, rfl⟩
      exact congrArg (List.cons _) (bhStep_after_buy cfg bs)

/-- C6 witness -/
theorem buy_and_hold_single_signal_witness :
    (closesToBars [10, 11, 12] ≠ []) ∧
    ∃ sig : StratSignal,
      (runSteps (bhStep {}) false (closesToBars [10, 11, 12])).2 =
        some sig :: List.replicate ((closesToBars [10, 11, 12]).length - 1) none ∧
      sig.action = .BUY ∧ sig.quantity = ({} : BHConfig).quantity :=
  ⟨by decide, buy_and_hold_single_signal {} (closesToBars [10, 11, 12]) (by decide)⟩

/-- C4 counterexample -/
theorem ma_scenario_counterexample :
    ((runMAOutputs maScenarioCfg maScenarioBars).getD 5 none).map
        StratSignal.action = some .SELL ∧
    ((runMAOutputs maScenarioCfg maScenarioBars).getD 5 none).map
        StratSignal.action ≠ none := by
  constructor
  · with_unfolding_all decide
  · with_unfolding_all decide

/-- C4 amended -/
theorem ma_scenario_outputs :
    (runMAOutputs maScenarioCfg maScenarioBars).map (Option.map StratSignal.action) =
      [none, none, none, some .BUY, none, some .SELL] := by
  with_unfolding_all decide

/-- C9 -/
theorem create_strategy_contract (reg : Registry) (name strategy_id : String)
    (params : StratParams) :
    (List.lookup name reg = none →
      createStrategy reg name strategy_id params =
        .error (.unknownStrategy (unknownStrategyMsg name (reg.map Prod.fst))
          (reg.map Prod.fst))) ∧
    (∀ k, List.lookup name reg = some k →
      (∀ inst, initStrategy k strategy_id params = .ok inst →
        createStrategy reg name strategy_id params = .ok inst) ∧
      (∀ e, initStrategy k strategy_id params = .error e →
        createStrategy reg name strategy_id params =
          .error (.invalidParameters e))) := by
  constructor
  · intro h
    unfold createStrategy
    rw [h]
  · intro k hk
    constructor
    · intro inst hi
      unfold createStrategy
      rw [hk]
      show Except.mapError CreateError.invalidParameters
        (initStrategy k strategy_id params) = Except.ok inst
      rw [hi]
      rfl
    · intro e he
      unfold createStrategy
      rw [hk]
      show Except.mapError CreateError.invalidParameters
        (initStrategy k strategy_id params) =
          Except.error (CreateError.invalidParameters e)
      rw [he]
      rfl

/-- C9 witness -/
theorem create_strategy_contract_witness :
    List.lookup "nonexistent" demoRegistry = none ∧
    createStrategy demoRegistry "nonexistent" "t1" {} =
      .error (.unknownStrategy
        "Strategy 'nonexistent' not found. Available strategies: buy_hold, ma_cross, rsi"
        ["buy_hold", "ma_cross", "rsi"]) ∧
    List.lookup "ma_cross" demoRegistry = some .maCross ∧
    initStrategy .maCross "t2" badMAParams =
      .error "fast_period must be less than slow_period" ∧
    createStrategy demoRegistry "ma_cross" "t2" badMAParams =
      .error (.invalidParameters "fast_period must be less than slow_period") := by
  have h1 := (create_strategy_contract demoRegistry "nonexistent" "t1" {}).1
    (by with_unfolding_all rfl)
  have h2 := ((create_strategy_contract demoRegistry "ma_cross" "t2" badMAParams).2
    .maCross (by with_unfolding_all rfl)).2
    "fast_period must be less than slow_period" (by with_unfolding_all rfl)
  refine ⟨by with_unfolding_all rfl, ?_, by with_unfolding_all rfl,
    by with_unfolding_all rfl, h2⟩
  rw [h1]
  with_unfolding_all rfl


end Utr1

namespace Utr1

/-! ## C5 — MA crossover per-bar characterization -/
theorem updateHistory_windowAt (cap : ℕ) (hcap : 0 < cap) (l : List ℚ) (c : ℚ) :
    updateHistory cap (windowAt cap l) c = windowAt cap (l ++ [c]) := by
  unfold updateHistory windowAt
  by_cases hc : l.length ≤ cap
  · have h0 : l.length - cap = 0 := by omega
    rw [h0, List.drop_zero]
    by_cases hc1 : cap < (l ++ [c]).length
    · rw [if_pos hc1]
    · rw [if_neg hc1]
      have h2 : (l ++ [c]).length - cap = 0 := by
        simp only [List.length_append, List.length_singleton]
        simp only [List.length_append, List.length_singleton] at hc1
        omega
      rw [h2, List.drop_zero]
  · have hcl : cap < l.length := by omega
    have hwlen : (l.drop (l.length - cap)).length = cap := by
      simp only [List.length_drop]
      omega
    have hcond : cap < (l.drop (l.length - cap) ++ [c]).length := by
      simp only [List.length_append, List.length_singleton, hwlen]
      omega
    rw [if_pos hcond]
    have h4 : (l.drop (l.length - cap) ++ [c]).length - cap = 1 := by
      simp only [List.length_append, List.length_singleton, hwlen]
      omega
    rw [h4]
    rw [List.drop_append_of_le_length (by rw [hwlen]; omega)]
    rw [List.drop_drop]
    have h5 : (l ++ [c]).length - cap = l.length + 1 - cap := by
      simp only [List.length_append, List.length_singleton]
    rw [h5, List.drop_append_of_le_length (by omega)]
    have h6 : l.length - cap + 1 = l.length + 1 - cap := by omega
    rw [h6]


theorem maCrossMaxHistory_pos (cfg : MAConfig) : 0 < cfg.maxHistorySize := by
  unfold MAConfig.maxHistorySize
  omega

theorem computeMA_eq_none_iff (cfg : MAConfig) (p : ℕ) (w : List ℚ) :
    computeMA cfg p w = none ↔ w.length < p := by
  unfold computeMA getSMA getEMA
  split <;> split <;> simp_all

theorem windowAt_length_mono (cap : ℕ) (l : List ℚ) (c : ℚ) :
    (windowAt cap l).length ≤ (windowAt cap (l ++ [c])).length := by
  simp only [windowAt, List.length_drop, List.length_append, List.length_singleton]
  omega

theorem runSteps_fst_append {σ : Type} (step : σ → Bar → σ × Option StratSignal)
    (s : σ) (l1 l2 : List Bar) :
    (runSteps step s (l1 ++ l2)).1 = (runSteps step (runSteps step s l1).1 l2).1 := by
  induction l1 generalizing s with
  | nil => rfl
  | cons b bs ih => exact ih ((step s b).1)

theorem runMAState_append (cfg : MAConfig) (bs : List Bar) (b : Bar) :
    runMAState cfg (bs ++ [b]) = (maStep cfg (runMAState cfg bs) b).1 := by
  unfold runMAState
  rw [runSteps_fst_append]
  rfl

/-- State invariant of the MA crossover instance: the stored history is the
rolling window over all closes seen, and `previous_state` is exactly the
relationship computed at the last computable bar (`none` before). -/
theorem runMA_invariant (cfg : MAConfig) (hslow : 0 < cfg.slow_period)
    (bars : List Bar) :
    (runMAState cfg bars).bars_history =
      windowAt cfg.maxHistorySize (bars.map Bar.close) ∧
    (runMAState cfg bars).previous_state = relAt cfg (bars.map Bar.close) := by
  induction bars using List.reverseRecOn with
  | nil =>
      constructor
      · show ([] : List ℚ) = windowAt cfg.maxHistorySize []
        simp [windowAt]
      · show (none : Option String) = relAt cfg []
        unfold relAt windowAt
        rw [if_pos (by simpa using hslow)]
  | append_singleton bs b ih =>
      obtain ⟨ihh, ihp⟩ := ih
      rw [runMAState_append]
      have hmap : (bs ++ [b]).map Bar.close = bs.map Bar.close ++ [b.close] := by
        simp
      rw [hmap]
      set closes := bs.map Bar.close with hcl
      set s := runMAState cfg bs with hs
      have hw : updateHistory cfg.maxHistorySize s.bars_history b.close =
          windowAt cfg.maxHistorySize (closes ++ [b.close]) := by
        rw [ihh, updateHistory_windowAt _ (maCrossMaxHistory_pos cfg)]
      unfold maStep
      rw [hw]
      by_cases hlen : (windowAt cfg.maxHistorySize (closes ++ [b.close])).length <
          cfg.slow_period
      · rw [if_pos hlen]
        refine ⟨rfl, ?_⟩
        show s.previous_state = _
        have hnew : relAt cfg (closes ++ [b.close]) = none := by
          unfold relAt
          rw [if_pos hlen]
        have hold : relAt cfg closes = none := by
          unfold relAt
          rw [if_pos (lt_of_le_of_lt (windowAt_length_mono _ _ _) hlen)]
        rw [hnew, ihp, hold]
      · rw [if_neg hlen]
        rcases hf : computeMA cfg cfg.fast_period
            (windowAt cfg.maxHistorySize (closes ++ [b.close])) with _ | fast_ma
        · have hnew : relAt cfg (closes ++ [b.close]) = none := by
            unfold relAt
            rw [if_neg hlen, hf]
          have hold : relAt cfg closes = none := by
            have hflen := (computeMA_eq_none_iff cfg _ _).mp hf
            unfold relAt
            by_cases hg : (windowAt cfg.maxHistorySize closes).length < cfg.slow_period
            · rw [if_pos hg]
            · rw [if_neg hg]
              rw [(computeMA_eq_none_iff cfg _ _).mpr
                (lt_of_le_of_lt (windowAt_length_mono _ _ _) hflen)]
          refine ⟨rfl, ?_⟩
          show s.previous_state = _
          rw [hnew, ihp, hold]
        · rcases hsl : computeMA cfg cfg.slow_period
              (windowAt cfg.maxHistorySize (closes ++ [b.close])) with _ | slow_ma
          · have hnew : relAt cfg (closes ++ [b.close]) = none := by
              unfold relAt
              rw [if_neg hlen, hf, hsl]
            have hold : relAt cfg closes = none := by
              have hslen := (computeMA_eq_none_iff cfg _ _).mp hsl
              unfold relAt
              by_cases hg : (windowAt cfg.maxHistorySize closes).length < cfg.slow_period
              · rw [if_pos hg]
              · exact absurd (lt_of_le_of_lt (windowAt_length_mono _ _ _) hslen) hg
            refine ⟨rfl, ?_⟩
            show s.previous_state = _
            rw [hnew, ihp, hold]
          · have hnew : relAt cfg (closes ++ [b.close]) =
                some (if fast_ma > slow_ma then "above" else "below") := by
              unfold relAt
              rw [if_neg hlen, hf, hsl]
            refine ⟨rfl, ?_⟩
            show some (if fast_ma > slow_ma then "above" else "below") = _
            rw [hnew]


theorem relAt_some_cases (cfg : MAConfig) (closes : List ℚ) (v : String)
    (h : relAt cfg closes = some v) : v = "above" ∨ v = "below" := by
  unfold relAt at h
  simp only [] at h
  split at h
  · exact absurd h (by simp)
  · split at h
    · next heq =>
        obtain rfl : _ = v := Option.some.inj h
        split
        · exact Or.inl rfl
        · exact Or.inr rfl
    · exact absurd h (by simp)

/-- C5 -/
theorem ma_crossover_step_characterization (cfg : MAConfig)
    (hslow : 0 < cfg.slow_period) (bars : List Bar) (b : Bar) :
    ((∃ sig, (maStep cfg (runMAState cfg bars) b).2 = some sig ∧
        sig.action = .BUY) ↔
      (relAt cfg (bars.map Bar.close) = some "below" ∧
       relAt cfg (bars.map Bar.close ++ [b.close]) = some "above" ∧
       (runMAState cfg bars).position ≠ some "long")) ∧
    ((∃ sig, (maStep cfg (runMAState cfg bars) b).2 = some sig ∧
        sig.action = .SELL) ↔
      (relAt cfg (bars.map Bar.close) = some "above" ∧
       relAt cfg (bars.map Bar.close ++ [b.close]) = some "below" ∧
       (runMAState cfg bars).position = some "long")) ∧
    (relAt cfg (bars.map Bar.close) = none →
      (maStep cfg (runMAState cfg bars) b).2 = none) ∧
    (relAt cfg (bars.map Bar.close ++ [b.close]) = relAt cfg (bars.map Bar.close) →
      (maStep cfg (runMAState cfg bars) b).2 = none) := by
  obtain ⟨ihh, ihp⟩ := runMA_invariant cfg hslow bars
  set s := runMAState cfg bars with hsdef
  set closes := bars.map Bar.close with hcldef
  have hw : updateHistory cfg.maxHistorySize s.bars_history b.close =
      windowAt cfg.maxHistorySize (closes ++ [b.close]) := by
    rw [ihh, updateHistory_windowAt _ (maCrossMaxHistory_pos cfg)]
  by_cases hlen : (windowAt cfg.maxHistorySize (closes ++ [b.close])).length <
      cfg.slow_period
  · have hout : (maStep cfg s b).2 = none := by
      unfold maStep
      rw [hw, if_pos hlen]
    have hnew : relAt cfg (closes ++ [b.close]) = none := by
      unfold relAt
      rw [if_pos hlen]
    have hold : relAt cfg closes = none := by
      unfold relAt
      rw [if_pos (lt_of_le_of_lt (windowAt_length_mono _ _ _) hlen)]
    rw [hout, hold, hnew]
    simp
  · rcases hf : computeMA cfg cfg.fast_period
        (windowAt cfg.maxHistorySize (closes ++ [b.close])) with _ | fm
    · have hout : (maStep cfg s b).2 = none := by
        unfold maStep
        rw [hw, if_neg hlen, hf]
      have hnew : relAt cfg (closes ++ [b.close]) = none := by
        unfold relAt
        rw [if_neg hlen, hf]
      have hold : relAt cfg closes = none := by
        have hflen := (computeMA_eq_none_iff cfg _ _).mp hf
        unfold relAt
        by_cases hg : (windowAt cfg.maxHistorySize closes).length < cfg.slow_period
        · rw [if_pos hg]
        · rw [if_neg hg,
            (computeMA_eq_none_iff cfg _ _).mpr
              (lt_of_le_of_lt (windowAt_length_mono _ _ _) hflen)]
      rw [hout, hold, hnew]
      simp
    · rcases hsl : computeMA cfg cfg.slow_period
          (windowAt cfg.maxHistorySize (closes ++ [b.close])) with _ | sm
      · have hout : (maStep cfg s b).2 = none := by
          unfold maStep
          rw [hw, if_neg hlen, hf, hsl]
        have hnew : relAt cfg (closes ++ [b.close]) = none := by
          unfold relAt
          rw [if_neg hlen, hf, hsl]
        have hold : relAt cfg closes = none := by
          have hslen := (computeMA_eq_none_iff cfg _ _).mp hsl
          unfold relAt
          by_cases hg : (windowAt cfg.maxHistorySize closes).length < cfg.slow_period
          · rw [if_pos hg]
          · exact absurd (lt_of_le_of_lt (windowAt_length_mono _ _ _) hslen) hg
        rw [hout, hold, hnew]
        simp
      · set cur := if fm > sm then "above" else "below" with hcurdef
        have hcur2 : cur = "above" ∨ cur = "below" := by
          rw [hcurdef]
          split
          · exact Or.inl rfl
          · exact Or.inr rfl
        have hcurne : ¬ ("above" : String) = "below" := by decide
        have hout : (maStep cfg s b).2 = (maSignalDecision cfg s b cur).2 := by
          unfold maStep
          rw [hw, if_neg hlen, hf, hsl]
        have hnew : relAt cfg (closes ++ [b.close]) = some cur := by
          unfold relAt
          rw [if_neg hlen, hf, hsl]
        rcases hold : relAt cfg closes with _ | v
        · have hprev : s.previous_state = none := by rw [ihp, hold]
          have hdec : (maSignalDecision cfg s b cur).2 = none := by
            unfold maSignalDecision
            rw [if_neg]
            rintro ⟨h1, -⟩
            exact h1 hprev
          rw [hout, hdec, hnew]
          simp
        · have hprev : s.previous_state = some v := by rw [ihp, hold]
          have hv := relAt_some_cases cfg closes v hold
          by_cases hvc : v = cur
          · have hdec : (maSignalDecision cfg s b cur).2 = none := by
              unfold maSignalDecision
              rw [if_neg]
              rintro ⟨-, h2⟩
              rw [hprev, hvc] at h2
              exact h2 rfl
            rw [hout, hdec, hnew, ← hvc]
            constructor
            · constructor
              · rintro ⟨sig, hs, -⟩
                exact absurd hs (by simp)
              · rintro ⟨h1, h2, -⟩
                obtain rfl : v = "below" := Option.some.inj h1
                exact absurd (Option.some.inj h2).symm (by decide)
            constructor
            · constructor
              · rintro ⟨sig, hs, -⟩
                exact absurd hs (by simp)
              · rintro ⟨h1, h2, -⟩
                obtain rfl : v = "above" := Option.some.inj h1
                exact absurd (Option.some.inj h2).symm (by decide)
            · exact ⟨fun _ => rfl, fun _ => rfl⟩
          · have hcrossed : s.previous_state ≠ none ∧ s.previous_state ≠ some cur := by
              rw [hprev]
              exact ⟨by simp, by simpa using hvc⟩
            rcases hv with hva | hvb
            · -- previous state "above": the new state must be "below"
              have hcb : cur = "below" := by
                rcases hcur2 with h | h
                · exact absurd (hva.trans h.symm) hvc
                · exact h
              by_cases hpos : s.position = some "long"
              · -- death cross while long: SELL
                have hdec : maSignalDecision cfg s b cur =
                    (none, some (createSignal cfg.strategy_id cfg.symbol .SELL b
                      cfg.quantity (85/100)
                      ("Fast " ++ cfg.ma_type.toUpper ++ "(" ++
                       toString cfg.fast_period ++ ") crossed below Slow " ++
                       cfg.ma_type.toUpper ++ "(" ++ toString cfg.slow_period ++
                       ")"))) := by
                  unfold maSignalDecision
                  rw [if_pos hcrossed, if_neg, if_pos ⟨hcb, hpos⟩]
                  rintro ⟨h1, -⟩
                  rw [hcb] at h1
                  exact absurd h1.symm (by decide)
                rw [hout, hdec, hnew, hva, hcb]
                simp [createSignal, hpos]
              · -- death cross while flat: no signal
                have hdec : (maSignalDecision cfg s b cur).2 = none := by
                  unfold maSignalDecision
                  rw [if_pos hcrossed, if_neg, if_neg]
                  · rintro ⟨-, h2⟩
                    exact hpos h2
                  · rintro ⟨h1, -⟩
                    rw [hcb] at h1
                    exact absurd h1.symm (by decide)
                rw [hout, hdec, hnew, hva, hcb]
                simp [hpos]
            · -- previous state "below": the new state must be "above"
              have hca : cur = "above" := by
                rcases hcur2 with h | h
                · exact h
                · exact absurd (hvb.trans h.symm) hvc
              by_cases hpos : s.position = some "long"
              · -- golden cross while already long: no signal
                have hdec : (maSignalDecision cfg s b cur).2 = none := by
                  unfold maSignalDecision
                  rw [if_pos hcrossed, if_neg, if_neg]
                  · rintro ⟨h1, -⟩
                    rw [hca] at h1
                    exact absurd h1 (by decide)
                  · rintro ⟨-, h2⟩
                    exact h2 hpos
                rw [hout, hdec, hnew, hvb, hca]
                simp [hpos]
              · -- golden cross while flat: BUY
                have hdec : maSignalDecision cfg s b cur =
                    (some "long", some (createSignal cfg.strategy_id cfg.symbol
                      .BUY b cfg.quantity (85/100)
                      ("Fast " ++ cfg.ma_type.toUpper ++ "(" ++
                       toString cfg.fast_period ++ ") crossed above Slow " ++
                       cfg.ma_type.toUpper ++ "(" ++ toString cfg.slow_period ++
                       ")"))) := by
                  unfold maSignalDecision
                  rw [if_pos hcrossed, if_pos ⟨hca, hpos⟩]
                rw [hout, hdec, hnew, hvb, hca]
                simp [createSignal, hpos]

/-- C5 witness: with fast/slow = 2/3 SMA and closes 10,10,10 then 20, the
characterization instantiates to the golden-cross BUY of the scenario. -/
theorem ma_crossover_step_characterization_witness :
    0 < maScenarioCfg.slow_period ∧
    (∃ sig, (maStep maScenarioCfg
        (runMAState maScenarioCfg (closesToBars [10, 10, 10]))
        { close := 20 }).2 = some sig ∧ sig.action = .BUY) := by
  refine ⟨by decide, ?_⟩
  have h := (ma_crossover_step_characterization maScenarioCfg (by decide)
    (closesToBars [10, 10, 10]) { close := 20 }).1
  exact h.mpr ⟨by with_unfolding_all decide, by with_unfolding_all decide,
    by with_unfolding_all decide⟩


end Utr1

namespace Utr1

/-! ## C7 — RSI confirmation-mode helper lemmas -/

theorem rsiMaxHistory_pos (cfg : RSIConfig) : 0 < cfg.maxHistorySize := by
  unfold RSIConfig.maxHistorySize
  omega

theorem getRSI_eq_none_iff (p : ℕ) (w : List ℚ) :
    getRSI p w = none ↔ w.length < p + 1 := by
  unfold getRSI
  split
  · simp_all
  · next h =>
      constructor
      · intro hc
        simp only [] at hc
        split at hc <;> exact absurd hc (by simp)
      · intro hc
        exact absurd hc h

theorem runRSIState_append (cfg : RSIConfig) (bs : List Bar) (b : Bar) :
    runRSIState cfg (bs ++ [b]) = (rsiStep cfg (runRSIState cfg bs) b).1 := by
  unfold runRSIState
  rw [runSteps_fst_append]
  rfl

theorem checkConfirmationSignals_fst_hist (cfg : RSIConfig) (s : RSIState)
    (b : Bar) (x : ℚ) :
    (checkConfirmationSignals cfg s b x).1.bars_history = s.bars_history := by
  unfold checkConfirmationSignals
  split
  · rfl
  · split
    · rfl
    · rfl

theorem checkImmediateSignals_fst_hist (cfg : RSIConfig) (s : RSIState)
    (b : Bar) (x : ℚ) :
    (checkImmediateSignals cfg s b x).1.bars_history = s.bars_history := by
  unfold checkImmediateSignals
  split
  · rfl
  · split
    · rfl
    · rfl

theorem rsiStep_fst_hist (cfg : RSIConfig) (s : RSIState) (b : Bar) :
    (rsiStep cfg s b).1.bars_history =
      updateHistory cfg.maxHistorySize s.bars_history b.close := by
  unfold rsiStep
  by_cases hg : (updateHistory cfg.maxHistorySize s.bars_history b.close).length <
      cfg.rsi_period + 1
  · simp only [if_pos hg]
  · simp only [if_neg hg]
    rcases hrsi : getRSI cfg.rsi_period
        (updateHistory cfg.maxHistorySize s.bars_history b.close) with _ | x
    · rfl
    · by_cases hc : cfg.use_confirmation
      · simp only [if_pos hc]
        exact checkConfirmationSignals_fst_hist cfg _ b x
      · simp only [if_neg hc]
        exact checkImmediateSignals_fst_hist cfg _ b x

/-- The RSI instance's stored history is the rolling window over all closes
seen so far. -/
theorem runRSI_history (cfg : RSIConfig) (bars : List Bar) :
    (runRSIState cfg bars).bars_history =
      windowAt cfg.maxHistorySize (bars.map Bar.close) := by
  induction bars using List.reverseRecOn with
  | nil =>
      show ([] : List ℚ) = windowAt cfg.maxHistorySize []
      simp [windowAt]
  | append_singleton bs b ih =>
      rw [runRSIState_append, rsiStep_fst_hist, ih,
        updateHistory_windowAt _ (rsiMaxHistory_pos cfg)]
      simp

/-- Unfolding of `process_bar` in confirmation mode at a computable bar. -/
theorem rsiStep_eq_conf (cfg : RSIConfig) (hconf : cfg.use_confirmation = true)
    (s : RSIState) (b : Bar) (x : ℚ)
    (hx : getRSI cfg.rsi_period
      (updateHistory cfg.maxHistorySize s.bars_history b.close) = some x) :
    rsiStep cfg s b =
      ({ (checkConfirmationSignals cfg
           { s with
               bars_history := updateHistory cfg.maxHistorySize s.bars_history b.close
               in_oversold_zone :=
                 if x < cfg.oversold_threshold then true else s.in_oversold_zone
               in_overbought_zone :=
                 if x > cfg.overbought_threshold then true else s.in_overbought_zone }
           b x).1 with last_rsi := some x },
       (checkConfirmationSignals cfg
           { s with
               bars_history := updateHistory cfg.maxHistorySize s.bars_history b.close
               in_oversold_zone :=
                 if x < cfg.oversold_threshold then true else s.in_oversold_zone
               in_overbought_zone :=
                 if x > cfg.overbought_threshold then true else s.in_overbought_zone }
           b x).2) := by
  have hlen : ¬ (updateHistory cfg.maxHistorySize s.bars_history b.close).length <
      cfg.rsi_period + 1 := by
    intro h
    rw [(getRSI_eq_none_iff _ _).mpr h] at hx
    exact absurd hx (by simp)
  unfold rsiStep
  rw [if_neg hlen, hx, hconf]
  simp only [if_true]

/-- The i-th per-bar output of a run, as the step applied to the state after
the first i bars. -/
theorem runSteps_snd_get {σ : Type} (step : σ → Bar → σ × Option StratSignal)
    (s : σ) (bars : List Bar) (i : ℕ) (h : i < bars.length) :
    (runSteps step s bars).2[i]? =
      some ((step (runSteps step s (bars.take i)).1 (bars.get ⟨i, h⟩)).2) := by
  induction bars generalizing i s with
  | nil => exact absurd h (by simp)
  | cons b bs ih =>
      match i with
      | 0 =>
          show ((step s b).2 :: (runSteps step (step s b).1 bs).2)[0]? = _
          rw [List.getElem?_cons_zero]
          rfl
      | i + 1 =>
          have h' : i < bs.length := by simpa using h
          show ((step s b).2 :: (runSteps step (step s b).1 bs).2)[i+1]? = _
          rw [List.getElem?_cons_succ]
          rw [ih ((step s b).1) i h']
          rfl


/-- `bars.take (i+1)` appends the i-th bar to `bars.take i`. -/
theorem take_succ_eq (bars : List Bar) (i : ℕ) (h : i < bars.length) :
    bars.take (i+1) = bars.take i ++ [bars.get ⟨i, h⟩] := by
  rw [List.take_succ]
  congr 1
  rw [List.getElem?_eq_getElem h]
  rfl

theorem rsi_state_step (cfg : RSIConfig) (bars : List Bar) (i : ℕ)
    (h : i < bars.length) :
    runRSIState cfg (bars.take (i+1)) =
      (rsiStep cfg (runRSIState cfg (bars.take i)) (bars.get ⟨i, h⟩)).1 := by
  rw [take_succ_eq bars i h, runRSIState_append]

/-- The RSI computed inside `process_bar` at bar i is `rsiAt` of the first
i+1 closes. -/
theorem rsi_at_step (cfg : RSIConfig) (bars : List Bar) (i : ℕ)
    (h : i < bars.length) :
    getRSI cfg.rsi_period (updateHistory cfg.maxHistorySize
      (runRSIState cfg (bars.take i)).bars_history (bars.get ⟨i, h⟩).close) =
    rsiAt cfg ((bars.map Bar.close).take (i+1)) := by
  rw [runRSI_history]
  have hmt : (bars.take i).map Bar.close = (bars.map Bar.close).take i := by
    rw [List.map_take]
  rw [hmt, updateHistory_windowAt _ (rsiMaxHistory_pos cfg)]
  unfold rsiAt
  congr 2
  rw [List.take_succ]
  congr 1
  rw [List.getElem?_map, List.getElem?_eq_getElem h]
  rfl


end Utr1

namespace Utr1

/-! ## C7 — RSI confirmation mode fires one BUY at the recovery bar -/

/-- One step of the RSI confirmation scenario: preservation of the phase
invariant plus the per-bar output. -/
theorem rsi_conf_step_spec (cfg : RSIConfig) (bars : List Bar) (d r : ℕ)
    (hconf : cfg.use_confirmation = true)
    (hdr : d < r) (hrn : r < bars.length)
    (hob : ∀ i, i < bars.length → ∀ x,
      rsiAt cfg ((bars.map Bar.close).take (i+1)) = some x →
      x ≤ cfg.overbought_threshold)
    (hpre : ∀ i, i < d → ∀ x,
      rsiAt cfg ((bars.map Bar.close).take (i+1)) = some x →
      ¬ x < cfg.oversold_threshold)
    (hdip : ∃ x, rsiAt cfg ((bars.map Bar.close).take (d+1)) = some x ∧
      x < cfg.oversold_threshold)
    (hmid : ∀ i, d < i → i < r → ∀ x,
      rsiAt cfg ((bars.map Bar.close).take (i+1)) = some x →
      ¬ cfg.oversold_threshold < x)
    (hrec : ∃ x, rsiAt cfg ((bars.map Bar.close).take (r+1)) = some x ∧
      cfg.oversold_threshold < x)
    (i : ℕ) (h : i < bars.length)
    (hbz : (runRSIState cfg (bars.take i)).in_overbought_zone = false)
    (hph1 : i ≤ d → (runRSIState cfg (bars.take i)).position = none ∧
      (runRSIState cfg (bars.take i)).in_oversold_zone = false)
    (hph2 : d < i → i ≤ r → (runRSIState cfg (bars.take i)).position = none ∧
      (runRSIState cfg (bars.take i)).in_oversold_zone = true)
    (hph3 : r < i → (runRSIState cfg (bars.take i)).position = some "long") :
    ((runRSIState cfg (bars.take (i+1))).in_overbought_zone = false ∧
     (i+1 ≤ d → (runRSIState cfg (bars.take (i+1))).position = none ∧
       (runRSIState cfg (bars.take (i+1))).in_oversold_zone = false) ∧
     (d < i+1 → i+1 ≤ r → (runRSIState cfg (bars.take (i+1))).position = none ∧
       (runRSIState cfg (bars.take (i+1))).in_oversold_zone = true) ∧
     (r < i+1 → (runRSIState cfg (bars.take (i+1))).position = some "long")) ∧
    (i ≠ r → (rsiStep cfg (runRSIState cfg (bars.take i)) (bars.get ⟨i, h⟩)).2 = none) ∧
    (i = r → ∃ sig,
      (rsiStep cfg (runRSIState cfg (bars.take i)) (bars.get ⟨i, h⟩)).2 = some sig ∧
      sig.action = .BUY ∧ sig.quantity = cfg.quantity) ∧
    (i = r → (runRSIState cfg (bars.take (i+1))).in_oversold_zone = false) := by
  have hstate := rsi_state_step cfg bars i h
  have hrsieq := rsi_at_step cfg bars i h
  rcases hri : rsiAt cfg ((bars.map Bar.close).take (i+1)) with _ | x
  · -- RSI not yet computable at bar i: state untouched apart from history
    have hid : i ≠ d := by
      rintro rfl
      obtain ⟨xd, hxd, -⟩ := hdip
      rw [hri] at hxd
      exact absurd hxd (by simp)
    have hir : i ≠ r := by
      rintro rfl
      obtain ⟨xr, hxr, -⟩ := hrec
      rw [hri] at hxr
      exact absurd hxr (by simp)
    have hguard : (updateHistory cfg.maxHistorySize
        (runRSIState cfg (bars.take i)).bars_history
        (bars.get ⟨i, h⟩).close).length < cfg.rsi_period + 1 :=
      (getRSI_eq_none_iff _ _).mp (hrsieq.trans hri)
    have hstep_eq : rsiStep cfg (runRSIState cfg (bars.take i)) (bars.get ⟨i, h⟩) =
        ({ runRSIState cfg (bars.take i) with
            bars_history := updateHistory cfg.maxHistorySize
              (runRSIState cfg (bars.take i)).bars_history
              (bars.get ⟨i, h⟩).close }, none) := by
      unfold rsiStep
      rw [if_pos hguard]
    rw [hstate, hstep_eq]
    refine ⟨⟨hbz, ?_, ?_, ?_⟩, fun _ => rfl, fun hir' => absurd hir' hir, 
      fun hir' => absurd hir' hir⟩
    · intro h1
      exact hph1 (by omega)
    · intro h1 h2
      exact hph2 (by omega) (by omega)
    · intro h1
      exact hph3 (by omega)
  · -- RSI computable at bar i
    have hx : getRSI cfg.rsi_period (updateHistory cfg.maxHistorySize
        (runRSIState cfg (bars.take i)).bars_history
        (bars.get ⟨i, h⟩).close) = some x := hrsieq.trans hri
    have hxob : ¬ x > cfg.overbought_threshold := not_lt.mpr (hob i h x hri)
    rw [hstate, rsiStep_eq_conf cfg hconf _ _ x hx]
    rw [if_neg hxob, hbz]
    rcases Nat.lt_trichotomy i d with hid | hid | hid
    · -- before the dip: flags stay clear, no signal
      have hxos : ¬ x < cfg.oversold_threshold := hpre i hid x hri
      obtain ⟨hpos, hoz⟩ := hph1 (by omega)
      rw [if_neg hxos, hoz]
      refine ⟨⟨?_, ?_, ?_, ?_⟩, ?_, ?_, ?_⟩
      · simp [checkConfirmationSignals]
      · intro h1
        constructor
        · simp [checkConfirmationSignals, hpos]
        · simp [checkConfirmationSignals]
      · intro h1 h2
        exact absurd h1 (by omega)
      · intro h1
        exact absurd h1 (by omega)
      · intro h1
        simp [checkConfirmationSignals]
      · intro h1
        exact absurd h1 (by omega)
      · intro h1
        exact absurd h1 (by omega)
    · -- the dip bar: the oversold flag is set, but no signal fires
      obtain ⟨xd, hxd, hlt⟩ := hdip
      have hxx : x = xd := by
        rw [hid] at hri
        rw [hri] at hxd
        exact Option.some.inj hxd
      have hxos : x < cfg.oversold_threshold := hxx ▸ hlt
      have hgt : ¬ cfg.oversold_threshold < x := lt_asymm hxos
      obtain ⟨hpos, hoz⟩ := hph1 (by omega)
      rw [if_pos hxos]
      refine ⟨⟨?_, ?_, ?_, ?_⟩, ?_, ?_, ?_⟩
      · simp [checkConfirmationSignals, hgt]
      · intro h1
        exact absurd h1 (by omega)
      · intro h1 h2
        constructor
        · simp [checkConfirmationSignals, hgt, hpos]
        · simp [checkConfirmationSignals, hgt]
      · intro h1
        exact absurd h1 (by omega)
      · intro h1
        simp [checkConfirmationSignals, hgt]
      · intro h1
        exact absurd h1 (by omega)
      · intro h1
        exact absurd h1 (by omega)
    · rcases Nat.lt_trichotomy i r with hir | hir | hir
      · -- between dip and recovery: flag sticky, no signal
        have hgt : ¬ cfg.oversold_threshold < x := hmid i hid hir x hri
        obtain ⟨hpos, hoz⟩ := hph2 (by omega) (by omega)
        rw [hoz, ite_self]
        refine ⟨⟨?_, ?_, ?_, ?_⟩, ?_, ?_, ?_⟩
        · simp [checkConfirmationSignals, hgt]
        · intro h1
          exact absurd h1 (by omega)
        · intro h1 h2
          constructor
          · simp [checkConfirmationSignals, hgt, hpos]
          · simp [checkConfirmationSignals, hgt]
        · intro h1
          exact absurd h1 (by omega)
        · intro h1
          simp [checkConfirmationSignals, hgt]
        · intro h1
          exact absurd h1 (by omega)
        · intro h1
          exact absurd h1 (by omega)
      · -- the recovery bar: exactly here the BUY fires and clears the flag
        obtain ⟨xr, hxr, hgt0⟩ := hrec
        have hxx : x = xr := by
          rw [hir] at hri
          rw [hri] at hxr
          exact Option.some.inj hxr
        have hgt : cfg.oversold_threshold < x := hxx ▸ hgt0
        have hxos : ¬ x < cfg.oversold_threshold := lt_asymm hgt
        obtain ⟨hpos, hoz⟩ := hph2 (by omega) (by omega)
        rw [if_neg hxos, hoz]
        refine ⟨⟨?_, ?_, ?_, ?_⟩, ?_, ?_, ?_⟩
        · simp [checkConfirmationSignals, hgt, hpos]
        · intro h1
          exact absurd h1 (by omega)
        · intro h1 h2
          exact absurd h2 (by omega)
        · intro h1
          simp [checkConfirmationSignals, hgt, hpos]
        · intro h1
          exact absurd hir h1
        · intro h1
          refine ⟨createSignal cfg.strategy_id cfg.symbol .BUY (bars.get ⟨i, h⟩)
            cfg.quantity (8/10) "rsi_oversold_recovery", ?_, rfl, rfl⟩
          simp [checkConfirmationSignals, hgt, hpos]
        · intro h1
          simp [checkConfirmationSignals, hgt, hpos]
      · -- after the BUY: long, never overbought, so no further signal
        have hpos := hph3 (by omega)
        refine ⟨⟨?_, ?_, ?_, ?_⟩, ?_, ?_, ?_⟩
        · simp [checkConfirmationSignals, hpos]
        · intro h1
          exact absurd h1 (by omega)
        · intro h1 h2
          exact absurd h2 (by omega)
        · intro h1
          simp [checkConfirmationSignals, hpos]
        · intro h1
          simp [checkConfirmationSignals, hpos]
        · intro h1
          exact absurd h1 (by omega)
        · intro h1
          exact absurd h1 (by omega)


/-- C7 -/
theorem rsi_confirmation_single_buy (cfg : RSIConfig) (bars : List Bar) (d r : ℕ)
    (hconf : cfg.use_confirmation = true)
    (hdr : d < r) (hrn : r < bars.length)
    (hob : ∀ i, i < bars.length → ∀ x,
      rsiAt cfg ((bars.map Bar.close).take (i+1)) = some x →
      x ≤ cfg.overbought_threshold)
    (hpre : ∀ i, i < d → ∀ x,
      rsiAt cfg ((bars.map Bar.close).take (i+1)) = some x →
      ¬ x < cfg.oversold_threshold)
    (hdip : ∃ x, rsiAt cfg ((bars.map Bar.close).take (d+1)) = some x ∧
      x < cfg.oversold_threshold)
    (hmid : ∀ i, d < i → i < r → ∀ x,
      rsiAt cfg ((bars.map Bar.close).take (i+1)) = some x →
      ¬ cfg.oversold_threshold < x)
    (hrec : ∃ x, rsiAt cfg ((bars.map Bar.close).take (r+1)) = some x ∧
      cfg.oversold_threshold < x) :
    (∀ i, i < bars.length → i ≠ r →
      (runRSIOutputs cfg bars)[i]? = some none) ∧
    (∃ sig, (runRSIOutputs cfg bars)[r]? = some (some sig) ∧
      sig.action = .BUY ∧ sig.quantity = cfg.quantity) ∧
    (runRSIState cfg (bars.take (r+1))).in_oversold_zone = false := by
  have inv : ∀ i, i ≤ bars.length →
      ((runRSIState cfg (bars.take i)).in_overbought_zone = false ∧
       (i ≤ d → (runRSIState cfg (bars.take i)).position = none ∧
         (runRSIState cfg (bars.take i)).in_oversold_zone = false) ∧
       (d < i → i ≤ r → (runRSIState cfg (bars.take i)).position = none ∧
         (runRSIState cfg (bars.take i)).in_oversold_zone = true) ∧
       (r < i → (runRSIState cfg (bars.take i)).position = some "long")) := by
    intro i
    induction i with
    | zero =>
        intro _
        exact ⟨rfl, fun _ => ⟨rfl, rfl⟩, fun h1 _ => absurd h1 (by omega),
          fun h1 => absurd h1 (by omega)⟩
    | succ i ih =>
        intro hi1
        have hi : i < bars.length := by omega
        obtain ⟨a, b, c, e⟩ := ih (by omega)
        exact (rsi_conf_step_spec cfg bars d r hconf hdr hrn hob hpre hdip hmid
          hrec i hi a b c e).1
  refine ⟨?_, ?_, ?_⟩
  · intro i h hir
    obtain ⟨a, b, c, e⟩ := inv i (le_of_lt h)
    have hspec := (rsi_conf_step_spec cfg bars d r hconf hdr hrn hob hpre hdip
      hmid hrec i h a b c e).2.1 hir
    unfold runRSIOutputs
    rw [runSteps_snd_get _ _ _ i h]
    unfold runRSIState at hspec
    rw [hspec]
  · obtain ⟨a, b, c, e⟩ := inv r (le_of_lt hrn)
    obtain ⟨sig, hsig, ha, hq⟩ := (rsi_conf_step_spec cfg bars d r hconf hdr hrn
      hob hpre hdip hmid hrec r hrn a b c e).2.2.1 rfl
    refine ⟨sig, ?_, ha, hq⟩
    unfold runRSIOutputs
    rw [runSteps_snd_get _ _ _ r hrn]
    unfold runRSIState at hsig
    rw [hsig]
  · obtain ⟨a, b, c, e⟩ := inv r (le_of_lt hrn)
    exact (rsi_conf_step_spec cfg bars d r hconf hdr hrn hob hpre hdip hmid hrec
      r hrn a b c e).2.2.2 rfl


/-- C7 witness -/
theorem rsi_confirmation_single_buy_witness :
    rsiScenarioCfg.use_confirmation = true ∧
    (∀ i, i < rsiScenarioBars.length → i ≠ 3 →
      (runRSIOutputs rsiScenarioCfg rsiScenarioBars)[i]? = some none) ∧
    (∃ sig, (runRSIOutputs rsiScenarioCfg rsiScenarioBars)[3]? = some (some sig) ∧
      sig.action = .BUY ∧ sig.quantity = rsiScenarioCfg.quantity) ∧
    (runRSIState rsiScenarioCfg (rsiScenarioBars.take 4)).in_oversold_zone = false := by
  have hv0 : rsiAt rsiScenarioCfg
      ((rsiScenarioBars.map Bar.close).take (0+1)) = none := by
    with_unfolding_all decide
  have hv1 : rsiAt rsiScenarioCfg
      ((rsiScenarioBars.map Bar.close).take (1+1)) = none := by
    with_unfolding_all decide
  have hv2 : rsiAt rsiScenarioCfg
      ((rsiScenarioBars.map Bar.close).take (2+1)) = some 0 := by
    with_unfolding_all decide
  have hv3 : rsiAt rsiScenarioCfg
      ((rsiScenarioBars.map Bar.close).take (3+1)) = some (75/2) := by
    with_unfolding_all decide
  have hlen : rsiScenarioBars.length = 4 := by decide
  have h := rsi_confirmation_single_buy rsiScenarioCfg rsiScenarioBars 2 3 rfl
    (by omega) (by omega)
    (by
      intro i hi x hx
      rw [hlen] at hi
      interval_cases i
      · rw [hv0] at hx
        cases hx
      · rw [hv1] at hx
        cases hx
      · rw [hv2] at hx
        obtain rfl : (0 : ℚ) = x := Option.some.inj hx
        norm_num [rsiScenarioCfg]
      · rw [hv3] at hx
        obtain rfl : (75/2 : ℚ) = x := Option.some.inj hx
        norm_num [rsiScenarioCfg])
    (by
      intro i hi x hx
      interval_cases i
      · rw [hv0] at hx
        cases hx
      · rw [hv1] at hx
        cases hx)
    (⟨0, hv2, by norm_num [rsiScenarioCfg]⟩)
    (by
      intro i h1 h2
      exfalso
      omega)
    (⟨75/2, hv3, by norm_num [rsiScenarioCfg]⟩)
  exact ⟨rfl, h.1, h.2.1, h.2.2⟩


end Utr1
